import Mathlib

/-!
Shallow embedding of the pending-request registry (`src/pending-store.ts`,
here `src/unnamed/part_006`) and the HTTP bridge (`src/http-server.ts`)
of mcp-wallet-signer, with theorems settling the specification claims.

Modelling conventions:
* JavaScript `Map<string, V>` values are association lists with the same
  observable operations (`aget` / `aset` / `adel`); `Map.set` overwrites in
  place, `Map.delete` removes the key.
* Each `create` call builds one Promise whose `resolve` / `reject`
  callbacks settle exactly that promise.  We key promise states by the
  request id (ids are fresh UUIDs in the real system); settling an
  already-settled promise is a no-op, as in JavaScript.
* `setTimeout` returns a positive numeric handle (Deno/browser timer ids
  start at 1); we model the runtime's timer table as `armed : List (Nat ×
  String)` mapping the handle to the id captured by the callback closure.
  `clearTimeout h` removes `h` from the table; a timer can only fire while
  its handle is still in the table, and firing removes it.
* `crypto.randomUUID()` and `Date.now()` are external inputs; the
  `create*` wrappers take the generated id and timestamp as parameters.
-/

/-- JSON values, as produced by `JSON.parse` on a request body. -/
inductive Json where
  | jnull
  | jbool (b : Bool)
  | jnum (n : Int)
  | jstr (s : String)
  | jarr (xs : List Json)
  | jobj (fields : List (String × Json))

/-- Association-list lookup, modelling `Map.get`. -/
def aget {K V : Type} [DecidableEq K] (k : K) : List (K × V) → Option V
  | [] => none
  | (k', v) :: rest => if k' = k then some v else aget k rest

/-- Association-list insert-or-overwrite, modelling `Map.set`. -/
def aset {K V : Type} [DecidableEq K] (k : K) (v : V) : List (K × V) → List (K × V)
  | [] => [(k, v)]
  | (k', v') :: rest => if k' = k then (k, v) :: rest else (k', v') :: aset k v rest

/-- Association-list removal, modelling `Map.delete`. -/
def adel {K V : Type} [DecidableEq K] (k : K) : List (K × V) → List (K × V)
  | [] => []
  | (k', v') :: rest => if k' = k then adel k rest else (k', v') :: adel k rest

theorem aget_aset_self {K V : Type} [DecidableEq K] (k : K) (v : V) (m : List (K × V)) :
    aget k (aset k v m) = some v := by
  induction m with
  | nil => simp [aget, aset]
  | cons hd tl ih =>
    obtain ⟨k', v'⟩ := hd
    simp only [aset]
    by_cases h : k' = k
    · rw [if_pos h]
      simp [aget]
    · rw [if_neg h]
      simp only [aget, if_neg h]
      exact ih

theorem aget_aset_ne {K V : Type} [DecidableEq K] {k k' : K} (h : k' ≠ k) (v : V)
    (m : List (K × V)) : aget k (aset k' v m) = aget k m := by
  induction m with
  | nil => simp [aget, aset, h]
  | cons hd tl ih =>
    obtain ⟨k'', v''⟩ := hd
    simp only [aset]
    by_cases h2 : k'' = k'
    · rw [if_pos h2]
      subst h2
      simp only [aget, if_neg h]
    · rw [if_neg h2]
      simp only [aget]
      by_cases h3 : k'' = k
      · rw [if_pos h3, if_pos h3]
      · rw [if_neg h3, if_neg h3]
        exact ih

theorem aget_adel_self {K V : Type} [DecidableEq K] (k : K) (m : List (K × V)) :
    aget k (adel k m) = none := by
  induction m with
  | nil => rfl
  | cons hd tl ih =>
    obtain ⟨k', v'⟩ := hd
    simp only [adel]
    by_cases h : k' = k
    · rw [if_pos h]
      exact ih
    · rw [if_neg h]
      simp only [aget, if_neg h]
      exact ih

theorem aget_adel_ne {K V : Type} [DecidableEq K] {k k' : K} (h : k' ≠ k)
    (m : List (K × V)) : aget k (adel k' m) = aget k m := by
  induction m with
  | nil => rfl
  | cons hd tl ih =>
    obtain ⟨k'', v''⟩ := hd
    simp only [adel]
    by_cases h2 : k'' = k'
    · rw [if_pos h2]
      subst h2
      simp only [aget, if_neg h]
      exact ih
    · rw [if_neg h2]
      simp only [aget]
      by_cases h3 : k'' = k
      · rw [if_pos h3, if_pos h3]
      · rw [if_neg h3, if_neg h3]
        exact ih

/-- EIP-712 domain (types.ts `TypedDataDomain`). -/
structure TypedDataDomain where
  name : Option String
  version : Option String
  chainId : Option Int
  verifyingContract : Option String
  salt : Option String
deriving DecidableEq

/-- EIP-712 field descriptor (types.ts `TypedDataField`). -/
structure TypedDataField where
  name : String
  fieldType : String
deriving DecidableEq

/-- The tagged union of pending requests (types.ts `PendingRequest`). -/
inductive PendingRequest where
  | connect (id : String) (chainId : Option Int) (createdAt : Int)
  | sendTransaction (id : String) (createdAt : Int) (toAddr : String)
      (value : Option String) (callData : Option String) (chainId : Option Int)
      (gasLimit : Option String) (maxFeePerGas : Option String)
      (maxPriorityFeePerGas : Option String)
  | signMessage (id : String) (createdAt : Int) (message : String)
      (address : Option String) (chainId : Option Int)
  | signTypedData (id : String) (createdAt : Int) (domain : TypedDataDomain)
      (types : List (String × List TypedDataField)) (primaryType : String)
      (message : List (String × Json)) (address : Option String) (chainId : Option Int)

/-- The `id` field shared by all request variants. -/
def PendingRequest.reqId : PendingRequest → String
  | .connect id _ _ => id
  | .sendTransaction id _ _ _ _ _ _ _ _ => id
  | .signMessage id _ _ _ _ => id
  | .signTypedData id _ _ _ _ _ _ _ => id

/-- Request outcome (types.ts `RequestResult`).  The HTTP layer can pass any
JSON value through the `data.result || ""` expression (the TypeScript cast
does not check at runtime), so the payload is a `Json` value. -/
inductive RequestResult where
  | success (result : Json)
  | failure (error : Json)

/-- State of one JavaScript promise: settling is single-shot. -/
inductive PromiseState where
  | unsettled
  | resolved (r : RequestResult)
  | rejected (msg : String)

/-- `resolve(result)` on the promise keyed by `id`: a no-op unless the
promise is still unsettled (JS promises settle at most once). -/
def resolvePromise (id : String) (r : RequestResult)
    (m : List (String × PromiseState)) : List (String × PromiseState) :=
  match aget id m with
  | some .unsettled => aset id (.resolved r) m
  | _ => m

/-- `reject(new Error(msg))` on the promise keyed by `id`, single-shot. -/
def rejectPromise (id : String) (msg : String)
    (m : List (String × PromiseState)) : List (String × PromiseState) :=
  match aget id m with
  | some .unsettled => aset id (.rejected msg) m
  | _ => m

/-- State of the `PendingStore` singleton together with the timer runtime
and the promises it has created.
`pending` and `timeouts` are the two private `Map`s of the class;
`armed` is the runtime's table of scheduled-and-not-yet-fired timers
(handle ↦ id captured by the callback); `promises` tracks each created
promise; `nextTimer` is the runtime's next timer handle (≥ 1). -/
structure PendingStore where
  pending : List (String × PendingRequest)
  timeouts : List (String × Nat)
  armed : List (Nat × String)
  promises : List (String × PromiseState)
  nextTimer : Nat

/-- The store at process start: empty maps, first timer handle 1. -/
def PendingStore.empty : PendingStore :=
  { pending := [], timeouts := [], armed := [], promises := [], nextTimer := 1 }

/-- `private create<T>(request)`: makes a new promise, stores the entry,
schedules the 5-minute timeout and records its handle; returns the id. -/
def PendingStore.create (s : PendingStore) (request : PendingRequest) :
    String × PendingStore :=
  let id := request.reqId
  (id,
    { pending := aset id request s.pending
      timeouts := aset id s.nextTimer s.timeouts
      armed := (s.nextTimer, id) :: s.armed
      promises := aset id .unsettled s.promises
      nextTimer := s.nextTimer + 1 })

/-- `createConnectRequest(chainId?)`; the generated UUID and `Date.now()`
are passed in as `newId` / `now`. -/
def PendingStore.createConnectRequest (s : PendingStore) (newId : String)
    (now : Int) (chainId : Option Int) : String × PendingStore :=
  s.create (.connect newId chainId now)

/-- `createSendTransactionRequest(params)`. -/
def PendingStore.createSendTransactionRequest (s : PendingStore) (newId : String)
    (now : Int) (toAddr : String) (value callData : Option String)
    (chainId : Option Int) (gasLimit maxFeePerGas maxPriorityFeePerGas : Option String) :
    String × PendingStore :=
  s.create (.sendTransaction newId now toAddr value callData chainId gasLimit
    maxFeePerGas maxPriorityFeePerGas)

/-- `createSignMessageRequest(params)`. -/
def PendingStore.createSignMessageRequest (s : PendingStore) (newId : String)
    (now : Int) (message : String) (address : Option String) (chainId : Option Int) :
    String × PendingStore :=
  s.create (.signMessage newId now message address chainId)

/-- `createSignTypedDataRequest(params)`. -/
def PendingStore.createSignTypedDataRequest (s : PendingStore) (newId : String)
    (now : Int) (domain : TypedDataDomain) (types : List (String × List TypedDataField))
    (primaryType : String) (message : List (String × Json)) (address : Option String)
    (chainId : Option Int) : String × PendingStore :=
  s.create (.signTypedData newId now domain types primaryType message address chainId)

/-- The timeout callback for handle `h` fires.  Only a still-armed timer can
fire; firing consumes the handle.  The callback body: if the id is still
pending, remove it from both maps and reject with the timeout message. -/
def PendingStore.fireTimeout (s : PendingStore) (h : Nat) : PendingStore :=
  match aget h s.armed with
  | none => s
  | some id =>
    let s' := { s with armed := adel h s.armed }
    if (aget id s'.pending).isSome then
      { s' with
        pending := adel id s'.pending
        timeouts := adel id s'.timeouts
        promises := rejectPromise id "Request timed out after 5 minutes" s'.promises }
    else s'

/-- The `clearTimeout` block shared by `complete` and `cancel`: look up the
recorded handle and, when it is truthy (a nonzero number), clear the timer
and drop it from the `timeouts` map. -/
def PendingStore.clearStoredTimeout (s : PendingStore) (id : String) : PendingStore :=
  match aget id s.timeouts with
  | some h =>
    if h ≠ 0 then
      { s with armed := adel h s.armed, timeouts := adel id s.timeouts }
    else s
  | none => s

/-- `complete(id, result)`: false if no entry; otherwise clear the timeout,
resolve the promise with `result`, remove the entry, return true. -/
def PendingStore.complete (s : PendingStore) (id : String) (result : RequestResult) :
    Bool × PendingStore :=
  match aget id s.pending with
  | none => (false, s)
  | some _ =>
    let s' := s.clearStoredTimeout id
    (true,
      { s' with
        promises := resolvePromise id result s'.promises
        pending := adel id s'.pending })

/-- `cancel(id, reason?)`: false if no entry; otherwise clear the timeout,
reject the promise with `new Error(reason || "Request cancelled")` (note
the JavaScript `||`: an empty-string reason also falls back to the
default), remove the entry, return true. -/
def PendingStore.cancel (s : PendingStore) (id : String) (reason : Option String) :
    Bool × PendingStore :=
  match aget id s.pending with
  | none => (false, s)
  | some _ =>
    let s' := s.clearStoredTimeout id
    let msg := match reason with
      | some v => if v = "" then "Request cancelled" else v
      | none => "Request cancelled"
    (true,
      { s' with
        promises := rejectPromise id msg s'.promises
        pending := adel id s'.pending })

/-- `get(id)`: read-only lookup, `this.pending.get(id)?.request` (the
`pending` map here stores each entry's `request` directly; the entry's
`resolve` / `reject` callbacks are modelled by the `promises` component). -/
def PendingStore.get (s : PendingStore) (id : String) : Option PendingRequest :=
  aget id s.pending

/-- `has(id)`. -/
def PendingStore.hasId (s : PendingStore) (id : String) : Bool :=
  (aget id s.pending).isSome

/-- `size` getter. -/
def PendingStore.storeSize (s : PendingStore) : Nat :=
  s.pending.length

/-! ## HTTP bridge (`src/http-server.ts`) -/

/-- JavaScript truthiness of a parsed JSON value. -/
def Json.truthy : Json → Bool
  | .jnull => false
  | .jbool b => b
  | .jnum n => n ≠ 0
  | .jstr s => s ≠ ""
  | .jarr _ => true
  | .jobj _ => true

/-- Property read `j[k]` for a non-null value: a key of an object, and
`undefined` (`none`) on any other value. -/
def Json.field (j : Json) (k : String) : Option Json :=
  match j with
  | .jobj fields => aget k fields
  | _ => none

/-- Property read `j[k]` as executed by JavaScript: reading a property of
`null` throws a TypeError (modelled as `Except.error ()`). -/
def Json.fieldOrThrow (j : Json) (k : String) : Except Unit (Option Json) :=
  match j with
  | .jnull => .error ()
  | _ => .ok (j.field k)

/-- `v || d` on an optional property value (JavaScript `||`, keyed on
truthiness; an absent property is `undefined`, which is falsy). -/
def jsOr (v : Option Json) (d : Json) : Json :=
  match v with
  | some j => if j.truthy then j else d
  | none => d

/-- An HTTP response: status, JSON body (`none` for a bodyless response
such as the 204 preflight), and headers in insertion order. -/
structure HttpResponse where
  status : Nat
  body : Option Json
  headers : List (String × String)

/-- The `corsHeaders` object of `handleApiRequest`. -/
def corsHeaders : List (String × String) :=
  [("Access-Control-Allow-Origin", "*"),
   ("Access-Control-Allow-Methods", "GET, POST, OPTIONS"),
   ("Access-Control-Allow-Headers", "Content-Type")]

/-- `{ ...corsHeaders, "Content-Type": "application/json" }`. -/
def jsonHeaders : List (String × String) :=
  corsHeaders ++ [("Content-Type", "application/json")]

/-- A JSON response with the CORS + content-type headers, as built
throughout `handleApiRequest` (`new Response(JSON.stringify(b), ...)`;
a construction without an explicit status defaults to 200). -/
def jsonResp (status : Nat) (b : Json) : HttpResponse :=
  { status := status, body := some b, headers := jsonHeaders }

/-- `{"error": msg}` bodies. -/
def errJson (msg : String) : Json :=
  .jobj [("error", .jstr msg)]

/-- `JSON.stringify` of a stored request (optional fields that are
`undefined` are omitted from the serialization). -/
def optField (k : String) (v : Option Json) : List (String × Json) :=
  match v with
  | some j => [(k, j)]
  | none => []

/-- Structural JSON encoding of a `PendingRequest` for the
`GET /api/pending/:id` response body. -/
def encodeRequest : PendingRequest → Json
  | .connect id chainId createdAt =>
    .jobj ([("id", .jstr id), ("type", .jstr "connect")]
      ++ optField "chainId" (chainId.map .jnum)
      ++ [("createdAt", .jnum createdAt)])
  | .sendTransaction id createdAt toAddr value callData chainId gasLimit
      maxFeePerGas maxPriorityFeePerGas =>
    .jobj ([("id", .jstr id), ("type", .jstr "send_transaction"),
        ("createdAt", .jnum createdAt), ("to", .jstr toAddr)]
      ++ optField "value" (value.map .jstr)
      ++ optField "data" (callData.map .jstr)
      ++ optField "chainId" (chainId.map .jnum)
      ++ optField "gasLimit" (gasLimit.map .jstr)
      ++ optField "maxFeePerGas" (maxFeePerGas.map .jstr)
      ++ optField "maxPriorityFeePerGas" (maxPriorityFeePerGas.map .jstr))
  | .signMessage id createdAt message address chainId =>
    .jobj ([("id", .jstr id), ("type", .jstr "sign_message"),
        ("createdAt", .jnum createdAt), ("message", .jstr message)]
      ++ optField "address" (address.map .jstr)
      ++ optField "chainId" (chainId.map .jnum))
  | .signTypedData id createdAt domain types primaryType message address chainId =>
    .jobj ([("id", .jstr id), ("type", .jstr "sign_typed_data"),
        ("createdAt", .jnum createdAt),
        ("domain", .jobj (optField "name" (domain.name.map .jstr)
          ++ optField "version" (domain.version.map .jstr)
          ++ optField "chainId" (domain.chainId.map .jnum)
          ++ optField "verifyingContract" (domain.verifyingContract.map .jstr)
          ++ optField "salt" (domain.salt.map .jstr))),
        ("types", .jobj (types.map (fun kv => (kv.1,
          .jarr (kv.2.map (fun f => .jobj [("name", .jstr f.name),
            ("type", .jstr f.fieldType)])))))),
        ("primaryType", .jstr primaryType), ("message", .jobj message)]
      ++ optField "address" (address.map .jstr)
      ++ optField "chainId" (chainId.map .jnum))

/-- Module-level server state: the `pendingStore` singleton plus the
`testResults` map filled in (asynchronously, outside the synchronous
handler) when a test request's promise settles. -/
structure ServerState where
  store : PendingStore
  testResults : List (String × Json)

/-- Server state at process start. -/
def ServerState.empty : ServerState :=
  { store := PendingStore.empty, testResults := [] }

/-- Character class of the `[a-f0-9-]` id token in the route patterns. -/
def isUuidChar (c : Char) : Bool :=
  c.isDigit || ('a' ≤ c && c ≤ 'f') || c = '-'

/-- Remove a literal route head from a pathname; `none` when the pathname
does not start with it.  Pathnames are modelled as character lists. -/
def chopPre : List Char → List Char → Option (List Char)
  | [], p => some p
  | _ :: _, [] => none
  | a :: pre, b :: p => if a = b then chopPre pre p else none

/-- `pathname.match(/^<head>([a-f0-9-]+)$/)`: strip the literal head and
require a nonempty remainder of id characters. -/
def routeId (head p : List Char) : Option (List Char) :=
  match chopPre head p with
  | some tok => if tok ≠ [] ∧ tok.all isUuidChar then some tok else none
  | none => none

def apiPendingHead : List Char := "/api/pending/".toList
def apiCompleteHead : List Char := "/api/complete/".toList
def apiTestResultHead : List Char := "/api/test/result/".toList
def apiHealthPath : List Char := "/api/health".toList
def apiCreateRequestPath : List Char := "/api/test/create-request".toList

/-- `GET /api/pending/:id`. -/
def pendingRoute (st : ServerState) (id : String) : HttpResponse × ServerState :=
  match st.store.get id with
  | none => (jsonResp 404 (errJson "Request not found"), st)
  | some req => (jsonResp 200 (.jobj [("request", encodeRequest req)]), st)

/-- `POST /api/complete/:id`.  The `has` check runs before any body
access; `body.success` can throw when the parsed body is JSON `null`;
once that first read has succeeded the body is known non-null, so the
later `result` / `error` reads cannot throw. -/
def completeRoute (st : ServerState) (id : String) (body : Json) :
    Except Unit (HttpResponse × ServerState) :=
  if ¬ st.store.hasId id then
    .ok (jsonResp 404 (errJson "Request not found"), st)
  else
    (body.fieldOrThrow "success").bind fun succ =>
      match succ with
      | some (.jbool b) =>
        let result : RequestResult :=
          if b then .success (jsOr (body.field "result") (.jstr ""))
          else .failure (jsOr (body.field "error") (.jstr "Unknown error"))
        let out := st.store.complete id result
        if out.1 then
          .ok (jsonResp 200 (.jobj [("ok", .jbool true)]), { st with store := out.2 })
        else
          .ok (jsonResp 500 (errJson "Failed to complete request"), { st with store := out.2 })
      | _ => .ok (jsonResp 400 (errJson "Invalid request body"), st)

/-- `GET /api/health`. -/
def healthRoute (st : ServerState) : HttpResponse × ServerState :=
  (jsonResp 200 (.jobj [("status", .jstr "ok"),
    ("pendingRequests", .jnum st.store.storeSize)]), st)

/-- Coercion of an optional JSON property through a TypeScript `as number`
cast: the typed value when the runtime type matches, absent otherwise. -/
def asNum (v : Option Json) : Option Int :=
  match v with
  | some (.jnum n) => some n
  | _ => none

/-- Coercion through `as string | undefined`. -/
def asOptStr (v : Option Json) : Option String :=
  match v with
  | some (.jstr s) => some s
  | _ => none

/-- Coercion through a required `as string` cast (empty when the runtime
value is not a string). -/
def asStr (v : Option Json) : String :=
  match v with
  | some (.jstr s) => s
  | _ => ""

/-- Coercion of `data.domain` through the `TypedDataDomain` cast. -/
def asDomain (v : Option Json) : TypedDataDomain :=
  match v with
  | some (.jobj fs) =>
    { name := asOptStr (aget "name" fs)
      version := asOptStr (aget "version" fs)
      chainId := asNum (aget "chainId" fs)
      verifyingContract := asOptStr (aget "verifyingContract" fs)
      salt := asOptStr (aget "salt" fs) }
  | _ => { name := none, version := none, chainId := none,
           verifyingContract := none, salt := none }

/-- Coercion of `data.types` through the `Record<string, TypedDataField[]>`
cast. -/
def asTypes (v : Option Json) : List (String × List TypedDataField) :=
  match v with
  | some (.jobj fs) =>
    fs.map (fun kv => (kv.1,
      match kv.2 with
      | .jarr xs => xs.map (fun f =>
          { name := asStr (f.field "name"), fieldType := asStr (f.field "type") })
      | _ => []))
  | _ => []

/-- Coercion of `data.message` through the `Record<string, unknown>` cast. -/
def asObj (v : Option Json) : List (String × Json) :=
  match v with
  | some (.jobj fs) => fs
  | _ => []

/-- `POST /api/test/create-request`.  `data.type` can throw on a JSON
`null` body; the `promise.then` registration that later fills
`testResults` is asynchronous and has no synchronous effect here. -/
def createRequestRoute (st : ServerState) (body : Json) (freshId : String)
    (now : Int) : Except Unit (HttpResponse × ServerState) :=
  (body.fieldOrThrow "type").bind fun ty =>
    match ty with
    | some (.jstr "connect") =>
      let out := st.store.createConnectRequest freshId now (asNum (body.field "chainId"))
      .ok (jsonResp 200 (.jobj [("id", .jstr out.1)]), { st with store := out.2 })
    | some (.jstr "send_transaction") =>
      let out := st.store.createSendTransactionRequest freshId now
        (asStr (body.field "to")) (asOptStr (body.field "value"))
        (asOptStr (body.field "data")) (asNum (body.field "chainId"))
        (asOptStr (body.field "gasLimit")) (asOptStr (body.field "maxFeePerGas"))
        (asOptStr (body.field "maxPriorityFeePerGas"))
      .ok (jsonResp 200 (.jobj [("id", .jstr out.1)]), { st with store := out.2 })
    | some (.jstr "sign_message") =>
      let out := st.store.createSignMessageRequest freshId now
        (asStr (body.field "message")) (asOptStr (body.field "address"))
        (asNum (body.field "chainId"))
      .ok (jsonResp 200 (.jobj [("id", .jstr out.1)]), { st with store := out.2 })
    | some (.jstr "sign_typed_data") =>
      let out := st.store.createSignTypedDataRequest freshId now
        (asDomain (body.field "domain")) (asTypes (body.field "types"))
        (asStr (body.field "primaryType")) (asObj (body.field "message"))
        (asOptStr (body.field "address")) (asNum (body.field "chainId"))
      .ok (jsonResp 200 (.jobj [("id", .jstr out.1)]), { st with store := out.2 })
    | _ => .ok (jsonResp 400 (errJson "Invalid request type"), st)

/-- `GET /api/test/result/:id`. -/
def testResultRoute (st : ServerState) (id : String) : HttpResponse × ServerState :=
  match aget id st.testResults with
  | none =>
    if st.store.hasId id then
      (jsonResp 200 (.jobj [("pending", .jbool true)]), st)
    else
      (jsonResp 404 (errJson "Result not found"), st)
  | some r => (jsonResp 200 r, st)

/-- Fallthrough 404 at the end of `handleApiRequest`. -/
def apiFallback (st : ServerState) : Except Unit (HttpResponse × ServerState) :=
  .ok (jsonResp 404 (errJson "Not found"), st)

/-- Dispatch tail: `GET /api/test/result/:id`, else the 404 fallback. -/
def stepTestResult (st : ServerState) (pathname : List Char) (method : String) :
    Except Unit (HttpResponse × ServerState) :=
  match routeId apiTestResultHead pathname with
  | some tok => if method = "GET" then .ok (testResultRoute st (String.mk tok))
                else apiFallback st
  | none => apiFallback st

/-- Dispatch: `POST /api/test/create-request`, then later routes. -/
def stepCreateRequest (st : ServerState) (pathname : List Char) (method : String)
    (body : Json) (freshId : String) (now : Int) :
    Except Unit (HttpResponse × ServerState) :=
  if pathname = apiCreateRequestPath ∧ method = "POST" then
    createRequestRoute st body freshId now
  else stepTestResult st pathname method

/-- Dispatch: `GET /api/health`, then later routes. -/
def stepHealth (st : ServerState) (pathname : List Char) (method : String)
    (body : Json) (freshId : String) (now : Int) :
    Except Unit (HttpResponse × ServerState) :=
  if pathname = apiHealthPath ∧ method = "GET" then .ok (healthRoute st)
  else stepCreateRequest st pathname method body freshId now

/-- Dispatch: `POST /api/complete/:id`, then later routes. -/
def stepComplete (st : ServerState) (pathname : List Char) (method : String)
    (body : Json) (freshId : String) (now : Int) :
    Except Unit (HttpResponse × ServerState) :=
  match routeId apiCompleteHead pathname with
  | some tok =>
    if method = "POST" then completeRoute st (String.mk tok) body
    else stepHealth st pathname method body freshId now
  | none => stepHealth st pathname method body freshId now

/-- Dispatch: `GET /api/pending/:id`, then later routes. -/
def stepPending (st : ServerState) (pathname : List Char) (method : String)
    (body : Json) (freshId : String) (now : Int) :
    Except Unit (HttpResponse × ServerState) :=
  match routeId apiPendingHead pathname with
  | some tok =>
    if method = "GET" then .ok (pendingRoute st (String.mk tok))
    else stepComplete st pathname method body freshId now
  | none => stepComplete st pathname method body freshId now

/-- `handleApiRequest(pathname, method, body)`: the CORS preflight check
followed by the route chain, in source order. -/
def handleApiRequest (st : ServerState) (pathname : List Char) (method : String)
    (body : Json) (freshId : String) (now : Int) :
    Except Unit (HttpResponse × ServerState) :=
  if method = "OPTIONS" then
    .ok ({ status := 204, body := none, headers := corsHeaders }, st)
  else stepPending st pathname method body freshId now

/-- Result of `await req.json()` on a POST body. -/
inductive BodyParse where
  | malformed
  | parsed (j : Json)

/-- The `/api/` branch of the request handler in `ensureServerRunning`:
a POST body that fails to parse is answered 400 `{"error":"Invalid JSON"}`
with only a content-type header (note: no CORS headers on this path);
otherwise `handleApiRequest` runs with the parsed body, or with `null`
for non-POST methods. -/
def serveApi (st : ServerState) (pathname : List Char) (method : String)
    (raw : BodyParse) (freshId : String) (now : Int) :
    Except Unit (HttpResponse × ServerState) :=
  if method = "POST" then
    match raw with
    | .malformed =>
      .ok ({ status := 400, body := some (errJson "Invalid JSON"),
             headers := [("Content-Type", "application/json")] }, st)
    | .parsed j => handleApiRequest st pathname method j freshId now
  else handleApiRequest st pathname method .jnull freshId now

/-! ## Registry operations as a transition system -/

/-- The four mutating registry events: the three public writers and the
timeout callback firing. -/
inductive StoreOp where
  | opCreate (req : PendingRequest)
  | opComplete (id : String) (r : RequestResult)
  | opCancel (id : String) (reason : Option String)
  | opFire (h : Nat)

/-- Effect of one event on the store. -/
def applyOp (s : PendingStore) : StoreOp → PendingStore
  | .opCreate req => (s.create req).2
  | .opComplete id r => (s.complete id r).2
  | .opCancel id reason => (s.cancel id reason).2
  | .opFire h => s.fireTimeout h

/-- Run a sequence of events. -/
def runOps (ops : List StoreOp) (s : PendingStore) : PendingStore :=
  ops.foldl applyOp s

/-- The event is a `create` whose generated id is `id`. -/
def createsId (op : StoreOp) (id : String) : Prop :=
  ∃ req, op = .opCreate req ∧ req.reqId = id

theorem clearStoredTimeout_pending (s : PendingStore) (id : String) :
    (s.clearStoredTimeout id).pending = s.pending := by
  unfold PendingStore.clearStoredTimeout
  split
  · split <;> rfl
  · rfl

theorem clearStoredTimeout_promises (s : PendingStore) (id : String) :
    (s.clearStoredTimeout id).promises = s.promises := by
  unfold PendingStore.clearStoredTimeout
  split
  · split <;> rfl
  · rfl

theorem clearStoredTimeout_nextTimer (s : PendingStore) (id : String) :
    (s.clearStoredTimeout id).nextTimer = s.nextTimer := by
  unfold PendingStore.clearStoredTimeout
  split
  · split <;> rfl
  · rfl

theorem resolvePromise_ne {id id' : String} (h : id' ≠ id) (r : RequestResult)
    (m : List (String × PromiseState)) :
    aget id (resolvePromise id' r m) = aget id m := by
  unfold resolvePromise
  split
  · exact aget_aset_ne h _ m
  · rfl

theorem rejectPromise_ne {id id' : String} (h : id' ≠ id) (msg : String)
    (m : List (String × PromiseState)) :
    aget id (rejectPromise id' msg m) = aget id m := by
  unfold rejectPromise
  split
  · exact aget_aset_ne h _ m
  · rfl

theorem resolvePromise_self {id : String} {m : List (String × PromiseState)}
    (h : aget id m = some .unsettled) (r : RequestResult) :
    aget id (resolvePromise id r m) = some (.resolved r) := by
  unfold resolvePromise
  rw [h]
  exact aget_aset_self id _ m

theorem rejectPromise_self {id : String} {m : List (String × PromiseState)}
    (h : aget id m = some .unsettled) (msg : String) :
    aget id (rejectPromise id msg m) = some (.rejected msg) := by
  unfold rejectPromise
  rw [h]
  exact aget_aset_self id _ m

theorem complete_absent {s : PendingStore} {id : String}
    (h : aget id s.pending = none) (r : RequestResult) :
    s.complete id r = (false, s) := by
  unfold PendingStore.complete
  rw [h]

theorem cancel_absent {s : PendingStore} {id : String}
    (h : aget id s.pending = none) (reason : Option String) :
    s.cancel id reason = (false, s) := by
  unfold PendingStore.cancel
  rw [h]

/-- Any event that is not a `create` of `id` keeps an absent `id` absent
and leaves the promise slot of `id` untouched. -/
theorem applyOp_preserves_absent (s : PendingStore) (id : String) (op : StoreOp)
    (hop : ¬ createsId op id) (hpend : aget id s.pending = none) :
    aget id (applyOp s op).pending = none ∧
      aget id (applyOp s op).promises = aget id s.promises := by
  cases op with
  | opCreate req =>
    have hne : req.reqId ≠ id := by
      intro hcontra
      exact hop ⟨req, rfl, hcontra⟩
    simp only [applyOp, PendingStore.create]
    exact ⟨by rw [aget_aset_ne hne _ _]; exact hpend, aget_aset_ne hne _ _⟩
  | opComplete id' r =>
    by_cases hid : id' = id
    · subst hid
      simp only [applyOp, complete_absent hpend r]
      exact ⟨hpend, trivial⟩
    · simp only [applyOp]
      unfold PendingStore.complete
      cases hcase : aget id' s.pending with
      | none => exact ⟨hpend, by trivial⟩
      | some e =>
        refine ⟨?_, ?_⟩
        · simp only [aget_adel_ne hid, clearStoredTimeout_pending]
          exact hpend
        · simp only [resolvePromise_ne hid, clearStoredTimeout_promises]
  | opCancel id' reason =>
    by_cases hid : id' = id
    · subst hid
      simp only [applyOp, cancel_absent hpend reason]
      exact ⟨hpend, trivial⟩
    · simp only [applyOp]
      unfold PendingStore.cancel
      cases hcase : aget id' s.pending with
      | none => exact ⟨hpend, by trivial⟩
      | some e =>
        refine ⟨?_, ?_⟩
        · simp only [aget_adel_ne hid, clearStoredTimeout_pending]
          exact hpend
        · simp only [rejectPromise_ne hid, clearStoredTimeout_promises]
  | opFire h =>
    simp only [applyOp]
    unfold PendingStore.fireTimeout
    cases hcase : aget h s.armed with
    | none => exact ⟨hpend, rfl⟩
    | some id'' =>
      by_cases hhas : (aget id'' s.pending).isSome
      · have hne : id'' ≠ id := by
          intro hcontra
          subst hcontra
          rw [hpend] at hhas
          exact Bool.noConfusion hhas
        simp only [hhas, if_pos]
        exact ⟨by rw [aget_adel_ne hne]; exact hpend, rejectPromise_ne hne _ _⟩
      · simp only [hhas, if_neg]
        exact ⟨hpend, rfl⟩

/-- Trace version of the previous lemma. -/
theorem runOps_preserves_absent (ops : List StoreOp) (s : PendingStore) (id : String)
    (hops : ∀ op ∈ ops, ¬ createsId op id) (hpend : aget id s.pending = none) :
    aget id (runOps ops s).pending = none ∧
      aget id (runOps ops s).promises = aget id s.promises := by
  induction ops generalizing s with
  | nil => exact ⟨hpend, rfl⟩
  | cons op rest ih =>
    have hstep := applyOp_preserves_absent s id op (hops op (by simp)) hpend
    have hrest := ih (applyOp s op) (fun o ho => hops o (by simp [ho])) hstep.1
    exact ⟨hrest.1, hrest.2.trans hstep.2⟩

theorem complete_present {s : PendingStore} {id : String} {entry : PendingRequest}
    (hpend : aget id s.pending = some entry) (r : RequestResult) :
    s.complete id r =
      (true, { s.clearStoredTimeout id with
               promises := resolvePromise id r (s.clearStoredTimeout id).promises
               pending := adel id (s.clearStoredTimeout id).pending }) := by
  unfold PendingStore.complete
  rw [hpend]

theorem cancel_present {s : PendingStore} {id : String} {entry : PendingRequest}
    (hpend : aget id s.pending = some entry) (reason : Option String) :
    s.cancel id reason =
      (true, { s.clearStoredTimeout id with
               promises := rejectPromise id
                 (match reason with
                  | some v => if v = "" then "Request cancelled" else v
                  | none => "Request cancelled") (s.clearStoredTimeout id).promises
               pending := adel id (s.clearStoredTimeout id).pending }) := by
  unfold PendingStore.cancel
  rw [hpend]

theorem clearStoredTimeout_timeouts_none {s : PendingStore} {id : String}
    (htpos : ∀ h, aget id s.timeouts = some h → h ≠ 0) :
    aget id (s.clearStoredTimeout id).timeouts = none := by
  unfold PendingStore.clearStoredTimeout
  cases hc : aget id s.timeouts with
  | none => exact hc
  | some h =>
    dsimp only
    rw [if_pos (htpos h hc)]
    exact aget_adel_self id s.timeouts

theorem clearStoredTimeout_armed_cleared {s : PendingStore} {id : String} {h : Nat}
    (hc : aget id s.timeouts = some h) (hne : h ≠ 0) :
    aget h (s.clearStoredTimeout id).armed = none := by
  unfold PendingStore.clearStoredTimeout
  rw [hc]
  dsimp only
  rw [if_pos hne]
  exact aget_adel_self h s.armed

/-- Claim C1: when `id` is pending, `complete(id, result)` cancels the
entry's timeout (the recorded handle leaves both the `timeouts` map and the
runtime timer table), resolves the entry's promise with exactly `result`,
removes the entry, and returns true; on an unknown id it returns false and
changes nothing; and after a successful `complete`, every later `complete`
or `cancel` on the same id (over any trace of registry events that does not
create the id again) returns false and leaves the delivered result intact. -/
theorem pendingStore_complete_exactly_once
    (s : PendingStore) (id : String) (result : RequestResult) (entry : PendingRequest)
    (hpend : aget id s.pending = some entry)
    (htpos : ∀ h, aget id s.timeouts = some h → h ≠ 0) :
    (s.complete id result).1 = true
    ∧ aget id (s.complete id result).2.pending = none
    ∧ aget id (s.complete id result).2.timeouts = none
    ∧ (∀ h, aget id s.timeouts = some h →
        aget h (s.complete id result).2.armed = none)
    ∧ (aget id s.promises = some .unsettled →
        aget id (s.complete id result).2.promises = some (.resolved result))
    ∧ (∀ s₀ : PendingStore, aget id s₀.pending = none →
        s₀.complete id result = (false, s₀))
    ∧ (∀ ops : List StoreOp, (∀ op ∈ ops, ¬ createsId op id) →
        ∀ r' reason,
          (runOps ops (s.complete id result).2).complete id r'
              = (false, runOps ops (s.complete id result).2)
          ∧ (runOps ops (s.complete id result).2).cancel id reason
              = (false, runOps ops (s.complete id result).2)
          ∧ aget id (runOps ops (s.complete id result).2).promises
              = aget id (s.complete id result).2.promises) := by
  have heq := complete_present hpend result
  have habsent : aget id (s.complete id result).2.pending = none := by
    rw [heq]
    exact aget_adel_self id _
  refine ⟨by rw [heq], habsent, ?_, ?_, ?_, ?_, ?_⟩
  · rw [heq]
    exact clearStoredTimeout_timeouts_none htpos
  · intro h hc
    rw [heq]
    exact clearStoredTimeout_armed_cleared hc (htpos h hc)
  · intro hunset
    rw [heq]
    exact resolvePromise_self (by rw [clearStoredTimeout_promises]; exact hunset) result
  · intro s₀ h₀
    exact complete_absent h₀ result
  · intro ops hops r' reason
    have hrun := runOps_preserves_absent ops (s.complete id result).2 id hops habsent
    exact ⟨complete_absent hrun.1 r', cancel_absent hrun.1 reason, hrun.2⟩

theorem pendingStore_complete_exactly_once_witness :
    ((PendingStore.createConnectRequest PendingStore.empty "ab" 0 none).2.complete "ab"
        (.success (.jstr "0x1"))).1 = true
    ∧ aget "ab" ((PendingStore.createConnectRequest PendingStore.empty "ab" 0 none).2.complete
        "ab" (.success (.jstr "0x1"))).2.pending = none := by
  have h := pendingStore_complete_exactly_once
    (PendingStore.createConnectRequest PendingStore.empty "ab" 0 none).2 "ab"
    (.success (.jstr "0x1")) (.connect "ab" none 0) (by rfl)
    (by
      intro h hh
      rw [show aget "ab" (PendingStore.createConnectRequest PendingStore.empty
        "ab" 0 none).2.timeouts = some 1 from rfl] at hh
      simp at hh
      omega)
  exact ⟨h.1, h.2.1⟩

/-- Claim C7 counterexample: `cancel(id, "")` passes the empty string as
the reason, but the rejection message is the default "Request cancelled",
not the given reason — JavaScript `reason || "Request cancelled"` treats
the empty string as falsy. -/
theorem pendingStore_cancel_empty_reason_cex :
    aget "ab" (((PendingStore.createConnectRequest PendingStore.empty "ab" 0 none).2.cancel
        "ab" (some "")).2.promises) = some (.rejected "Request cancelled")
    ∧ "Request cancelled" ≠ "" := by
  exact ⟨rfl, by decide⟩

/-- Claim C7 (amended): for a pending id, `cancel(id, reason)` removes the
entry, cancels its timeout, returns true, and rejects the promise with the
given reason when it is nonempty; a missing or empty reason yields the
default message "Request cancelled".  On an unknown or already-resolved id
it returns false and does nothing. -/
theorem pendingStore_cancel_spec
    (s : PendingStore) (id : String) (reason : Option String) (entry : PendingRequest)
    (hpend : aget id s.pending = some entry)
    (htpos : ∀ h, aget id s.timeouts = some h → h ≠ 0) :
    (s.cancel id reason).1 = true
    ∧ aget id (s.cancel id reason).2.pending = none
    ∧ aget id (s.cancel id reason).2.timeouts = none
    ∧ (∀ h, aget id s.timeouts = some h →
        aget h (s.cancel id reason).2.armed = none)
    ∧ (aget id s.promises = some .unsettled →
        (∀ v, reason = some v → v ≠ "" →
          aget id (s.cancel id reason).2.promises = some (.rejected v))
        ∧ ((reason = none ∨ reason = some "") →
          aget id (s.cancel id reason).2.promises
            = some (.rejected "Request cancelled")))
    ∧ (∀ s₀ : PendingStore, aget id s₀.pending = none →
        s₀.cancel id reason = (false, s₀)) := by
  have heq := cancel_present hpend reason
  refine ⟨by rw [heq], ?_, ?_, ?_, ?_, ?_⟩
  · rw [heq]
    exact aget_adel_self id _
  · rw [heq]
    exact clearStoredTimeout_timeouts_none htpos
  · intro h hc
    rw [heq]
    exact clearStoredTimeout_armed_cleared hc (htpos h hc)
  · intro hunset
    have hbase : aget id (s.clearStoredTimeout id).promises = some .unsettled := by
      rw [clearStoredTimeout_promises]
      exact hunset
    constructor
    · intro v hv hne
      rw [heq]
      subst hv
      simp only [if_neg hne]
      exact rejectPromise_self hbase v
    · intro hdef
      rw [heq]
      rcases hdef with hnone | hempty
      · subst hnone
        exact rejectPromise_self hbase _
      · subst hempty
        simp only [if_pos rfl]
        exact rejectPromise_self hbase _
  · intro s₀ h₀
    exact cancel_absent h₀ reason

theorem pendingStore_cancel_spec_witness :
    ((PendingStore.createConnectRequest PendingStore.empty "ab" 0 none).2.cancel
        "ab" (some "nope")).1 = true
    ∧ aget "ab" ((PendingStore.createConnectRequest PendingStore.empty "ab" 0 none).2.cancel
        "ab" (some "nope")).2.pending = none := by
  have h := pendingStore_cancel_spec
    (PendingStore.createConnectRequest PendingStore.empty "ab" 0 none).2 "ab"
    (some "nope") (.connect "ab" none 0) (by rfl)
    (by
      intro h hh
      rw [show aget "ab" (PendingStore.createConnectRequest PendingStore.empty
        "ab" 0 none).2.timeouts = some 1 from rfl] at hh
      simp at hh
      omega)
  exact ⟨h.1, h.2.1⟩

/-- Claim C2: while the entry is still present, the timeout firing has
exactly the same effect on the whole store state as
`cancel(id, "Request timed out after 5 minutes")`; and resolving the
request first (by `complete` or `cancel`) disarms the pending timer, after
which the timer can no longer fire (a no-op on a disarmed handle). -/
theorem pendingStore_timeout_fire_equals_cancel
    (s : PendingStore) (id : String) (h : Nat) (r : RequestResult)
    (harm : aget h s.armed = some id)
    (hpend : (aget id s.pending).isSome)
    (htime : aget id s.timeouts = some h)
    (hpos : h ≠ 0) :
    s.fireTimeout h = (s.cancel id (some "Request timed out after 5 minutes")).2
    ∧ aget h (s.complete id r).2.armed = none
    ∧ (∀ reason, aget h (s.cancel id reason).2.armed = none)
    ∧ (∀ s' : PendingStore, aget h s'.armed = none → s'.fireTimeout h = s') := by
  obtain ⟨entry, hentry⟩ := Option.isSome_iff_exists.mp hpend
  have hclear : s.clearStoredTimeout id =
      { s with armed := adel h s.armed, timeouts := adel id s.timeouts } := by
    unfold PendingStore.clearStoredTimeout
    rw [htime]
    dsimp only
    rw [if_pos hpos]
  refine ⟨?_, ?_, ?_, ?_⟩
  · rw [cancel_present hentry, hclear]
    unfold PendingStore.fireTimeout
    rw [harm]
    dsimp only
    rw [if_pos (by exact hpend)]
    have hmsg : (if ("Request timed out after 5 minutes" : String) = "" then
        "Request cancelled" else "Request timed out after 5 minutes")
        = "Request timed out after 5 minutes" := by
      rw [if_neg (by decide)]
    simp only [hmsg]
  · rw [complete_present hentry, hclear]
    exact aget_adel_self h s.armed
  · intro reason
    rw [cancel_present hentry, hclear]
    exact aget_adel_self h s.armed
  · intro s' hnone
    unfold PendingStore.fireTimeout
    rw [hnone]

theorem pendingStore_timeout_fire_equals_cancel_witness :
    (PendingStore.createConnectRequest PendingStore.empty "ab" 0 none).2.fireTimeout 1
      = ((PendingStore.createConnectRequest PendingStore.empty "ab" 0 none).2.cancel
          "ab" (some "Request timed out after 5 minutes")).2
    ∧ aget 1 ((PendingStore.createConnectRequest PendingStore.empty "ab" 0 none).2.complete
        "ab" (.success (.jstr "0x1"))).2.armed = none := by
  have h := pendingStore_timeout_fire_equals_cancel
    (PendingStore.createConnectRequest PendingStore.empty "ab" 0 none).2 "ab" 1
    (.success (.jstr "0x1")) (by rfl) (by rfl) (by rfl) (by decide)
  exact ⟨h.1, h.2.1⟩

/-- Claim C6: `get(id)` right after any of the four create operations
returns a request whose type and fields are exactly the ones passed to the
create call (`get` is a pure observer of the state in this embedding, so it
cannot change registry state); and `get` returns absent both for ids not in
the registry and for ids whose request was resolved by `complete`,
`cancel`, or the timeout. -/
theorem pendingStore_create_get_roundtrip :
    (∀ (s : PendingStore) newId now chainId,
      (s.createConnectRequest newId now chainId).2.get newId
        = some (.connect newId chainId now)
      ∧ (s.createConnectRequest newId now chainId).1 = newId)
    ∧ (∀ (s : PendingStore) newId now toAddr value callData chainId gasLimit
        maxFeePerGas maxPriorityFeePerGas,
      (s.createSendTransactionRequest newId now toAddr value callData chainId
          gasLimit maxFeePerGas maxPriorityFeePerGas).2.get newId
        = some (.sendTransaction newId now toAddr value callData chainId gasLimit
            maxFeePerGas maxPriorityFeePerGas))
    ∧ (∀ (s : PendingStore) newId now message address chainId,
      (s.createSignMessageRequest newId now message address chainId).2.get newId
        = some (.signMessage newId now message address chainId))
    ∧ (∀ (s : PendingStore) newId now domain types primaryType message address chainId,
      (s.createSignTypedDataRequest newId now domain types primaryType message
          address chainId).2.get newId
        = some (.signTypedData newId now domain types primaryType message address chainId))
    ∧ (∀ (s : PendingStore) id, aget id s.pending = none → s.get id = none)
    ∧ (∀ (s : PendingStore) id r, (s.complete id r).2.get id = none)
    ∧ (∀ (s : PendingStore) id reason, (s.cancel id reason).2.get id = none)
    ∧ (∀ (s : PendingStore) h id, aget h s.armed = some id →
        (s.fireTimeout h).get id = none) := by
  refine ⟨?_, ?_, ?_, ?_, ?_, ?_, ?_, ?_⟩
  · intro s newId now chainId
    exact ⟨aget_aset_self newId _ s.pending, rfl⟩
  · intro s newId now toAddr value callData chainId gasLimit maxFeePerGas maxPriorityFeePerGas
    exact aget_aset_self newId _ s.pending
  · intro s newId now message address chainId
    exact aget_aset_self newId _ s.pending
  · intro s newId now domain types primaryType message address chainId
    exact aget_aset_self newId _ s.pending
  · intro s id hnone
    exact hnone
  · intro s id r
    unfold PendingStore.complete PendingStore.get
    cases hc : aget id s.pending with
    | none => exact hc
    | some e =>
      dsimp only
      exact aget_adel_self id _
  · intro s id reason
    unfold PendingStore.cancel PendingStore.get
    cases hc : aget id s.pending with
    | none => exact hc
    | some e =>
      dsimp only
      exact aget_adel_self id _
  · intro s h id harm
    unfold PendingStore.fireTimeout PendingStore.get
    rw [harm]
    dsimp only
    by_cases hhas : (aget id s.pending).isSome
    · rw [if_pos hhas]
      exact aget_adel_self id _
    · rw [if_neg hhas]
      exact Option.not_isSome_iff_eq_none.mp hhas

theorem pendingStore_create_get_roundtrip_witness :
    (PendingStore.createConnectRequest PendingStore.empty "ab" 0 (some 1)).2.get "ab"
      = some (.connect "ab" (some 1) 0)
    ∧ ((PendingStore.createConnectRequest PendingStore.empty "ab" 0 (some 1)).2.complete
        "ab" (.success (.jstr "0x1"))).2.get "ab" = none := by
  exact ⟨(pendingStore_create_get_roundtrip.1 PendingStore.empty "ab" 0 (some 1)).1,
    pendingStore_create_get_roundtrip.2.2.2.2.2.1
      (PendingStore.createConnectRequest PendingStore.empty "ab" 0 (some 1)).2 "ab" _⟩

/-- The registry's cross-map invariant: `pending` and `timeouts` hold the
same ids, every recorded timer handle is a positive number below the
runtime's next handle (so it is truthy and fresh), and the runtime's armed
timer table is exactly the graph of the `timeouts` map. -/
def StoreInv (s : PendingStore) : Prop :=
  (∀ id, (aget id s.pending).isSome ↔ (aget id s.timeouts).isSome)
  ∧ (∀ id h, aget id s.timeouts = some h → 0 < h ∧ h < s.nextTimer)
  ∧ (∀ h id, aget h s.armed = some id ↔ aget id s.timeouts = some h)
  ∧ 0 < s.nextTimer

theorem clearStoredTimeout_eq {s : PendingStore} {id : String} {h : Nat}
    (htime : aget id s.timeouts = some h) (hpos : h ≠ 0) :
    s.clearStoredTimeout id =
      { s with armed := adel h s.armed, timeouts := adel id s.timeouts } := by
  unfold PendingStore.clearStoredTimeout
  rw [htime]
  dsimp only
  rw [if_pos hpos]

/-- Removing one id together with its recorded handle keeps the invariant. -/
theorem storeInv_remove (s : PendingStore) (hinv : StoreInv s) (id : String) (h : Nat)
    (htime : aget id s.timeouts = some h) (p : List (String × PromiseState)) :
    StoreInv { pending := adel id s.pending, timeouts := adel id s.timeouts,
               armed := adel h s.armed, promises := p, nextTimer := s.nextTimer } := by
  obtain ⟨hdom, hbound, harm, hpos⟩ := hinv
  refine ⟨?_, ?_, ?_, hpos⟩
  · intro id'
    by_cases hid : id' = id
    · subst hid
      simp [aget_adel_self]
    · rw [aget_adel_ne (Ne.symm hid), aget_adel_ne (Ne.symm hid)]
      exact hdom id'
  · intro id' h' hc
    by_cases hid : id' = id
    · subst hid
      rw [aget_adel_self] at hc
      exact absurd hc (by simp)
    · rw [aget_adel_ne (Ne.symm hid)] at hc
      exact hbound id' h' hc
  · intro h' id'
    constructor
    · intro hc
      by_cases hh : h' = h
      · subst hh
        rw [aget_adel_self] at hc
        exact absurd hc (by simp)
      · rw [aget_adel_ne (Ne.symm hh)] at hc
        have h1 := (harm h' id').mp hc
        by_cases hid : id' = id
        · subst hid
          rw [htime] at h1
          injection h1 with h2
          exact absurd h2.symm hh
        · rw [aget_adel_ne (Ne.symm hid)]
          exact h1
    · intro hc
      by_cases hid : id' = id
      · subst hid
        rw [aget_adel_self] at hc
        exact absurd hc (by simp)
      · rw [aget_adel_ne (Ne.symm hid)] at hc
        have h1 := (harm h' id').mpr hc
        by_cases hh : h' = h
        · have h2 := (harm h id).mpr htime
          rw [hh, h2] at h1
          injection h1 with h3
          exact absurd h3 (fun hx => hid hx.symm)
        · rw [aget_adel_ne (Ne.symm hh)]
          exact h1

/-- Claim C9: each registry operation — `create` on a fresh id, `complete`,
`cancel`, and the timeout callback — preserves the invariant that the
pending map and the timeouts map hold exactly the same ids, each with one
armed timer handle, and no timer handle exists for a non-pending id. -/
theorem pendingStore_invariant_preserved (s : PendingStore) (hinv : StoreInv s) :
    (∀ req : PendingRequest, aget req.reqId s.pending = none →
        StoreInv (s.create req).2)
    ∧ (∀ id r, StoreInv (s.complete id r).2)
    ∧ (∀ id reason, StoreInv (s.cancel id reason).2)
    ∧ (∀ h, StoreInv (s.fireTimeout h)) := by
  obtain ⟨hdom, hbound, harm, hpos⟩ := hinv
  refine ⟨?_, ?_, ?_, ?_⟩
  · intro req hfresh
    have htnone : aget req.reqId s.timeouts = none := by
      have := (hdom req.reqId)
      rw [hfresh] at this
      exact Option.not_isSome_iff_eq_none.mp (fun hs => by simp [hs] at this)
    unfold PendingStore.create
    dsimp only
    refine ⟨?_, ?_, ?_, Nat.succ_pos _⟩
    · intro id'
      by_cases hid : id' = req.reqId
      · subst hid
        rw [aget_aset_self, aget_aset_self]
        simp
      · rw [aget_aset_ne (fun hx => hid hx.symm), aget_aset_ne (fun hx => hid hx.symm)]
        exact hdom id'
    · intro id' h' hc
      by_cases hid : id' = req.reqId
      · subst hid
        rw [aget_aset_self] at hc
        injection hc with hc2
        subst hc2
        exact ⟨hpos, Nat.lt_succ_self _⟩
      · rw [aget_aset_ne (fun hx => hid hx.symm)] at hc
        exact ⟨(hbound id' h' hc).1, Nat.lt_succ_of_lt (hbound id' h' hc).2⟩
    · intro h' id''
      simp only [aget]
      by_cases hh : s.nextTimer = h'
      · rw [if_pos hh]
        subst hh
        constructor
        · intro hc
          injection hc with hc2
          subst hc2
          exact aget_aset_self _ _ _
        · intro hc
          by_cases hid : id'' = req.reqId
          · subst hid
            rfl
          · rw [aget_aset_ne (fun hx => hid hx.symm)] at hc
            exact absurd (hbound id'' _ hc).2 (lt_irrefl _)
      · rw [if_neg hh]
        constructor
        · intro hc
          have h1 := (harm h' id'').mp hc
          by_cases hid : id'' = req.reqId
          · subst hid
            rw [htnone] at h1
            exact absurd h1 (by simp)
          · rw [aget_aset_ne (fun hx => hid hx.symm)]
            exact h1
        · intro hc
          by_cases hid : id'' = req.reqId
          · subst hid
            rw [aget_aset_self] at hc
            injection hc with hc2
            exact absurd hc2 hh
          · rw [aget_aset_ne (fun hx => hid hx.symm)] at hc
            exact (harm h' id'').mpr hc
  · intro id r
    unfold PendingStore.complete
    cases hc : aget id s.pending with
    | none => exact ⟨hdom, hbound, harm, hpos⟩
    | some e =>
      dsimp only
      have hts : (aget id s.timeouts).isSome := (hdom id).mp (by rw [hc]; rfl)
      obtain ⟨h, htime⟩ := Option.isSome_iff_exists.mp hts
      have hne : h ≠ 0 := Nat.pos_iff_ne_zero.mp (hbound id h htime).1
      rw [clearStoredTimeout_eq htime hne]
      exact storeInv_remove s ⟨hdom, hbound, harm, hpos⟩ id h htime _
  · intro id reason
    unfold PendingStore.cancel
    cases hc : aget id s.pending with
    | none => exact ⟨hdom, hbound, harm, hpos⟩
    | some e =>
      dsimp only
      have hts : (aget id s.timeouts).isSome := (hdom id).mp (by rw [hc]; rfl)
      obtain ⟨h, htime⟩ := Option.isSome_iff_exists.mp hts
      have hne : h ≠ 0 := Nat.pos_iff_ne_zero.mp (hbound id h htime).1
      rw [clearStoredTimeout_eq htime hne]
      exact storeInv_remove s ⟨hdom, hbound, harm, hpos⟩ id h htime _
  · intro h
    unfold PendingStore.fireTimeout
    cases hc : aget h s.armed with
    | none => exact ⟨hdom, hbound, harm, hpos⟩
    | some id =>
      dsimp only
      have htime := (harm h id).mp hc
      have hpend : (aget id s.pending).isSome := (hdom id).mpr (by rw [htime]; rfl)
      rw [if_pos hpend]
      exact storeInv_remove s ⟨hdom, hbound, harm, hpos⟩ id h htime _

theorem pendingStore_invariant_preserved_witness :
    StoreInv (PendingStore.empty.create (.connect "ab" none 0)).2 := by
  have hinv : StoreInv PendingStore.empty := by
    refine ⟨fun id => ?_, fun id h hc => ?_, fun h id => ?_, ?_⟩
    · simp [PendingStore.empty, aget]
    · simp [PendingStore.empty, aget] at hc
    · simp [PendingStore.empty, aget]
    · simp [PendingStore.empty]
  exact (pendingStore_invariant_preserved PendingStore.empty hinv).1
    (.connect "ab" none 0) rfl

/-! ## HTTP bridge lemmas -/

theorem fieldOrThrow_ok_of_ne_null {j : Json} (h : j ≠ .jnull) (k : String) :
    j.fieldOrThrow k = .ok (j.field k) := by
  cases j with
  | jnull => exact absurd rfl h
  | jbool b => rfl
  | jnum n => rfl
  | jstr s => rfl
  | jarr xs => rfl
  | jobj fields => rfl

theorem chopPre_self_append (pre rest : List Char) :
    chopPre pre (pre ++ rest) = some rest := by
  induction pre with
  | nil => rfl
  | cons a pre ih =>
    simp only [List.cons_append, chopPre, if_pos rfl]
    exact ih

/-- Responses out of the non-preflight route chain: always `Except.ok`,
always CORS+JSON shaped, and always one of the deterministic statuses. -/
def RespOk (e : Except Unit (HttpResponse × ServerState)) : Prop :=
  ∃ c bd st', e = .ok (jsonResp c bd, st') ∧ c ∈ [200, 400, 404, 500]

theorem respOk_fallback (st : ServerState) : RespOk (apiFallback st) :=
  ⟨404, errJson "Not found", st, rfl, by decide⟩

theorem respOk_testResultRoute (st : ServerState) (id : String) :
    RespOk (.ok (testResultRoute st id)) := by
  unfold testResultRoute
  split
  · split
    · exact ⟨200, _, st, rfl, by decide⟩
    · exact ⟨404, _, st, rfl, by decide⟩
  · exact ⟨200, _, st, rfl, by decide⟩

theorem respOk_stepTestResult (st : ServerState) (p : List Char) (m : String) :
    RespOk (stepTestResult st p m) := by
  unfold stepTestResult
  split
  · split
    · exact respOk_testResultRoute st _
    · exact respOk_fallback st
  · exact respOk_fallback st

theorem respOk_createRequestRoute (st : ServerState) (body : Json) (freshId : String)
    (now : Int) (hb : body ≠ .jnull) :
    RespOk (createRequestRoute st body freshId now) := by
  unfold createRequestRoute
  rw [fieldOrThrow_ok_of_ne_null hb]
  simp only [Except.bind]
  split
  · exact ⟨200, _, _, rfl, by decide⟩
  · exact ⟨200, _, _, rfl, by decide⟩
  · exact ⟨200, _, _, rfl, by decide⟩
  · exact ⟨200, _, _, rfl, by decide⟩
  · exact ⟨400, _, st, rfl, by decide⟩

theorem respOk_stepCreateRequest (st : ServerState) (p : List Char) (m : String)
    (body : Json) (freshId : String) (now : Int) (hb : m = "POST" → body ≠ .jnull) :
    RespOk (stepCreateRequest st p m body freshId now) := by
  unfold stepCreateRequest
  split
  · next hcond => exact respOk_createRequestRoute st body freshId now (hb hcond.2)
  · exact respOk_stepTestResult st p m

theorem respOk_stepHealth (st : ServerState) (p : List Char) (m : String)
    (body : Json) (freshId : String) (now : Int) (hb : m = "POST" → body ≠ .jnull) :
    RespOk (stepHealth st p m body freshId now) := by
  unfold stepHealth
  split
  · exact ⟨200, _, st, rfl, by decide⟩
  · exact respOk_stepCreateRequest st p m body freshId now hb

theorem respOk_completeRoute (st : ServerState) (id : String) (body : Json)
    (hb : body ≠ .jnull) : RespOk (completeRoute st id body) := by
  unfold completeRoute
  split
  · exact ⟨404, _, st, rfl, by decide⟩
  · rw [fieldOrThrow_ok_of_ne_null hb]
    simp only [Except.bind]
    split
    · split <;> split
      · exact ⟨200, _, _, rfl, by decide⟩
      · exact ⟨500, _, _, rfl, by decide⟩
      · exact ⟨200, _, _, rfl, by decide⟩
      · exact ⟨500, _, _, rfl, by decide⟩
    · exact ⟨400, _, st, rfl, by decide⟩

theorem respOk_stepComplete (st : ServerState) (p : List Char) (m : String)
    (body : Json) (freshId : String) (now : Int) (hb : m = "POST" → body ≠ .jnull) :
    RespOk (stepComplete st p m body freshId now) := by
  unfold stepComplete
  split
  · split
    · next hm => exact respOk_completeRoute st _ body (hb hm)
    · exact respOk_stepHealth st p m body freshId now hb
  · exact respOk_stepHealth st p m body freshId now hb

theorem respOk_stepPending (st : ServerState) (p : List Char) (m : String)
    (body : Json) (freshId : String) (now : Int) (hb : m = "POST" → body ≠ .jnull) :
    RespOk (stepPending st p m body freshId now) := by
  unfold stepPending
  split
  · split
    · unfold pendingRoute
      split
      · exact ⟨404, _, st, rfl, by decide⟩
      · exact ⟨200, _, st, rfl, by decide⟩
    · exact respOk_stepComplete st p m body freshId now hb
  · exact respOk_stepComplete st p m body freshId now hb

theorem shape_help {c : Nat} {bd : Json} {sx : ServerState} {resp : HttpResponse}
    {st' : ServerState}
    (h : (Except.ok (jsonResp c bd, sx) : Except Unit (HttpResponse × ServerState))
      = .ok (resp, st')) : ∃ c2 bd2, resp = jsonResp c2 bd2 := by
  simp only [Except.ok.injEq, Prod.mk.injEq] at h
  exact ⟨c, bd, h.1.symm⟩

/-- Every `Except.ok` response out of the route chain (everything except
the OPTIONS preflight and the malformed-JSON 400) is a `jsonResp`, i.e.
carries the CORS headers plus the JSON content type. -/
theorem shape_stepPending {st : ServerState} {p : List Char} {m : String} {body : Json}
    {freshId : String} {now : Int} {resp : HttpResponse} {st' : ServerState}
    (h : stepPending st p m body freshId now = .ok (resp, st')) :
    ∃ c bd, resp = jsonResp c bd := by
  simp only [stepPending, stepComplete, stepHealth, stepCreateRequest, stepTestResult,
    apiFallback, pendingRoute, completeRoute, createRequestRoute, healthRoute,
    testResultRoute, Except.bind] at h
  repeat' (first | exact shape_help h | exact Except.noConfusion h | split at h)

/-- Claim C5 counterexample: a POST body that parses to JSON `null` makes
the handler throw a TypeError (reading `data.success` of `null`) instead of
returning a response, although `null` is well-formed JSON. -/
theorem http_bridge_throws_on_null_body_cex :
    serveApi { store := (PendingStore.createConnectRequest PendingStore.empty "cd" 0 none).2,
               testResults := [] } "/api/complete/cd".toList "POST" (.parsed .jnull) "x" 0
      = .error () := by
  rfl

/-- Claim C5 (amended): for every request whose POST body is not the JSON
value `null`, the bridge returns a response and never throws; a malformed
JSON body is converted to a 400; and every returned status is one of
200, 204, 400, 404, 500 (204 for the OPTIONS preflight).  A POST body of
JSON `null` is the one exception, where the handler throws. -/
theorem http_bridge_total_statuses (st : ServerState) (p : List Char) (m : String)
    (raw : BodyParse) (freshId : String) (now : Int)
    (hb : m = "POST" → raw ≠ .parsed .jnull) :
    (∃ r, serveApi st p m raw freshId now = .ok r
      ∧ r.1.status ∈ [200, 204, 400, 404, 500])
    ∧ (m = "POST" → raw = .malformed →
        serveApi st p m raw freshId now
          = .ok ({ status := 400, body := some (errJson "Invalid JSON"),
                   headers := [("Content-Type", "application/json")] }, st)) := by
  unfold serveApi
  by_cases hm : m = "POST"
  · rw [if_pos hm]
    cases raw with
    | malformed =>
      dsimp only
      refine ⟨⟨_, rfl, ?_⟩, fun _ _ => rfl⟩
      dsimp only
      decide
    | parsed j =>
      dsimp only
      have hj : j ≠ .jnull := fun hx => hb hm (by rw [hx])
      refine ⟨?_, fun _ hraw => BodyParse.noConfusion hraw⟩
      unfold handleApiRequest
      by_cases hopt : m = "OPTIONS"
      · rw [if_pos hopt]
        refine ⟨_, rfl, ?_⟩
        dsimp only
        decide
      · rw [if_neg hopt]
        obtain ⟨c, bd, st2, heq, hc⟩ :=
          respOk_stepPending st p m j freshId now (fun _ => hj)
        refine ⟨_, heq, ?_⟩
        simp only [List.mem_cons, List.mem_singleton, jsonResp] at hc ⊢
        tauto
  · rw [if_neg hm]
    refine ⟨?_, fun hm' => absurd hm' hm⟩
    unfold handleApiRequest
    by_cases hopt : m = "OPTIONS"
    · rw [if_pos hopt]
      refine ⟨_, rfl, ?_⟩
      dsimp only
      decide
    · rw [if_neg hopt]
      obtain ⟨c, bd, st2, heq, hc⟩ :=
        respOk_stepPending st p m .jnull freshId now (fun hx => absurd hx hm)
      refine ⟨_, heq, ?_⟩
      simp only [List.mem_cons, List.mem_singleton, jsonResp] at hc ⊢
      tauto

theorem http_bridge_total_statuses_witness :
    ∃ r, serveApi ServerState.empty "/api/health".toList "GET" (.parsed (.jobj [])) "x" 0
      = .ok r ∧ r.1.status ∈ [200, 204, 400, 404, 500] := by
  exact (http_bridge_total_statuses ServerState.empty "/api/health".toList "GET"
    (.parsed (.jobj [])) "x" 0 (fun h => absurd h (by decide))).1

/-- Claim C8 counterexample: the 400 response produced for a malformed
JSON body carries no `Access-Control-Allow-Origin` header, contradicting
"this holds for all responses, including the 400 produced for a malformed
JSON body". -/
theorem api_malformed_json_no_cors_cex :
    ∃ r, serveApi ServerState.empty "/api/complete/ab".toList "POST" .malformed "x" 0
      = .ok r ∧ ("Access-Control-Allow-Origin", "*") ∉ r.1.headers
      ∧ r.1.status = 400 := by
  refine ⟨_, rfl, ?_, rfl⟩
  decide

/-- Claim C8 (amended): every response produced by `handleApiRequest`
(i.e. for any request whose body parse succeeded) carries the
`Access-Control-Allow-Origin: *` CORS header; all non-preflight responses
are JSON with the JSON content type; an OPTIONS preflight gets a bodyless
204 with exactly the CORS headers.  The 400 for a malformed JSON body,
however, is produced outside `handleApiRequest` and carries only the JSON
content type, with no CORS headers. -/
theorem api_responses_cors_json (st : ServerState) (p : List Char) (m : String)
    (body : Json) (freshId : String) (now : Int) (resp : HttpResponse) (st' : ServerState)
    (h : handleApiRequest st p m body freshId now = .ok (resp, st')) :
    ("Access-Control-Allow-Origin", "*") ∈ resp.headers
    ∧ (m ≠ "OPTIONS" → ("Content-Type", "application/json") ∈ resp.headers
        ∧ resp.body.isSome)
    ∧ (m = "OPTIONS" → resp.status = 204 ∧ resp.headers = corsHeaders ∧ resp.body = none)
    ∧ (∀ q, serveApi st q "POST" .malformed freshId now
        = .ok ({ status := 400, body := some (errJson "Invalid JSON"),
                 headers := [("Content-Type", "application/json")] }, st)) := by
  unfold handleApiRequest at h
  by_cases hopt : m = "OPTIONS"
  · rw [if_pos hopt] at h
    simp only [Except.ok.injEq, Prod.mk.injEq] at h
    obtain ⟨h1, _⟩ := h
    subst h1
    exact ⟨by decide, fun hx => absurd hopt hx, fun _ => ⟨rfl, rfl, rfl⟩, fun q => rfl⟩
  · rw [if_neg hopt] at h
    obtain ⟨c, bd, hshape⟩ := shape_stepPending h
    subst hshape
    refine ⟨?_, fun _ => ⟨?_, rfl⟩, fun hx => absurd hx hopt, fun q => rfl⟩
    · simp [jsonResp, jsonHeaders, corsHeaders]
    · simp [jsonResp, jsonHeaders, corsHeaders]

theorem api_responses_cors_json_witness :
    ("Access-Control-Allow-Origin", "*") ∈
      ({ status := 204, body := none, headers := corsHeaders } : HttpResponse).headers := by
  exact (api_responses_cors_json ServerState.empty [] "OPTIONS" .jnull "x" 0
    { status := 204, body := none, headers := corsHeaders } ServerState.empty rfl).1

theorem routeId_pending_on_complete (tok : List Char) :
    routeId apiPendingHead (apiCompleteHead ++ tok) = none := by
  rfl

theorem complete_true_of_present {s : PendingStore} {id : String}
    (hpend : (aget id s.pending).isSome) (r : RequestResult) :
    (s.complete id r).1 = true := by
  obtain ⟨e, he⟩ := Option.isSome_iff_exists.mp hpend
  rw [complete_present he]

/-- Routing: a POST whose pathname is the complete-route head followed by a
nonempty id token lands in `completeRoute` with that id. -/
theorem dispatch_complete (st : ServerState) (tok : List Char) (body : Json)
    (freshId : String) (now : Int) (hne : tok ≠ []) (hchars : tok.all isUuidChar) :
    handleApiRequest st (apiCompleteHead ++ tok) "POST" body freshId now
      = completeRoute st (String.mk tok) body := by
  have hroute : routeId apiCompleteHead (apiCompleteHead ++ tok) = some tok := by
    unfold routeId
    rw [chopPre_self_append]
    dsimp only
    rw [if_pos ⟨hne, hchars⟩]
  unfold handleApiRequest
  rw [if_neg (by decide : ¬("POST" : String) = "OPTIONS")]
  unfold stepPending
  rw [routeId_pending_on_complete]
  dsimp only
  unfold stepComplete
  rw [hroute]
  dsimp only
  rw [if_pos rfl]

/-- The complete route on a pending id with a boolean `success` field:
normalize the body into a `RequestResult` and answer 200 `{ok: true}`. -/
theorem handleComplete_eq (st : ServerState) (tok : List Char) (body : Json)
    (freshId : String) (now : Int) (hne : tok ≠ []) (hchars : tok.all isUuidChar)
    (hhas : st.store.hasId (String.mk tok) = true) (b : Bool)
    (hsucc : body.field "success" = some (.jbool b)) :
    handleApiRequest st (apiCompleteHead ++ tok) "POST" body freshId now
      = .ok (jsonResp 200 (.jobj [("ok", .jbool true)]),
          { st with store := (st.store.complete (String.mk tok)
              (if b then .success (jsOr (body.field "result") (.jstr ""))
               else .failure (jsOr (body.field "error") (.jstr "Unknown error")))).2 }) := by
  have hnn : body ≠ .jnull := by
    intro hx
    rw [hx] at hsucc
    exact Option.noConfusion hsucc
  rw [dispatch_complete st tok body freshId now hne hchars]
  unfold completeRoute
  rw [if_neg (by simp [hhas])]
  rw [fieldOrThrow_ok_of_ne_null hnn]
  simp only [Except.bind]
  rw [hsucc]
  dsimp only
  rw [if_pos (complete_true_of_present hhas _)]

/-- Claim C3: on POST /api/complete/{id}, an absent id answers 404 with
the registry untouched; a pending id with boolean `success` answers 200
`{ok: true}` after completing; and in this sequential model no execution
reaches the 500 branch (the complete call cannot fail after `has`
succeeded, because nothing runs between the two). -/
theorem http_complete_route_statuses (st : ServerState) (tok : List Char) (body : Json)
    (freshId : String) (now : Int) (hne : tok ≠ []) (hchars : tok.all isUuidChar) :
    (st.store.hasId (String.mk tok) = false →
      handleApiRequest st (apiCompleteHead ++ tok) "POST" body freshId now
        = .ok (jsonResp 404 (errJson "Request not found"), st))
    ∧ (∀ b : Bool, st.store.hasId (String.mk tok) = true →
        body.field "success" = some (.jbool b) →
        handleApiRequest st (apiCompleteHead ++ tok) "POST" body freshId now
          = .ok (jsonResp 200 (.jobj [("ok", .jbool true)]),
              { st with store := (st.store.complete (String.mk tok)
                  (if b then .success (jsOr (body.field "result") (.jstr ""))
                   else .failure (jsOr (body.field "error") (.jstr "Unknown error")))).2 }))
    ∧ (∀ resp st', handleApiRequest st (apiCompleteHead ++ tok) "POST" body freshId now
        = .ok (resp, st') → resp.status ≠ 500) := by
  refine ⟨?_, ?_, ?_⟩
  · intro hhas
    rw [dispatch_complete st tok body freshId now hne hchars]
    unfold completeRoute
    rw [if_pos (by simp [hhas])]
  · intro b hhas hsucc
    exact handleComplete_eq st tok body freshId now hne hchars hhas b hsucc
  · intro resp st' h
    rw [dispatch_complete st tok body freshId now hne hchars] at h
    unfold completeRoute at h
    split at h
    · simp only [Except.ok.injEq, Prod.mk.injEq] at h
      rw [← h.1]
      simp [jsonResp]
    · next hhas =>
      have hpend : (aget (String.mk tok) st.store.pending).isSome := by
        by_cases hx : (aget (String.mk tok) st.store.pending).isSome
        · exact hx
        · exact absurd (fun hy => hx hy) hhas
      cases hbody : body.fieldOrThrow "success" with
      | error e =>
        rw [hbody] at h
        simp only [Except.bind] at h
        exact Except.noConfusion h
      | ok v =>
        rw [hbody] at h
        simp only [Except.bind] at h
        split at h
        · split at h
          · split at h
            · simp only [Except.ok.injEq, Prod.mk.injEq] at h
              rw [← h.1]
              simp [jsonResp]
            · next hfalse =>
              exact absurd (complete_true_of_present hpend _) hfalse
          · split at h
            · simp only [Except.ok.injEq, Prod.mk.injEq] at h
              rw [← h.1]
              simp [jsonResp]
            · next hfalse =>
              exact absurd (complete_true_of_present hpend _) hfalse
        · simp only [Except.ok.injEq, Prod.mk.injEq] at h
          rw [← h.1]
          simp [jsonResp]

theorem http_complete_route_statuses_witness :
    handleApiRequest { store := (PendingStore.createConnectRequest PendingStore.empty
        "ab" 0 none).2, testResults := [] } (apiCompleteHead ++ ['e', 'f']) "POST"
        (.jobj [("success", .jbool true)]) "x" 0
      = .ok (jsonResp 404 (errJson "Request not found"),
          { store := (PendingStore.createConnectRequest PendingStore.empty
              "ab" 0 none).2, testResults := [] }) := by
  exact (http_complete_route_statuses
    { store := (PendingStore.createConnectRequest PendingStore.empty "ab" 0 none).2,
      testResults := [] } ['e', 'f'] (.jobj [("success", .jbool true)]) "x" 0
    (by decide) (by decide)).1 (by rfl)

/-- Claim C4 counterexample: with a pending id and the POST body being the
JSON value `null` — a body whose `success` field is certainly missing —
the handler throws (reading `data.success` of `null`) instead of answering
400, so the claim does not hold for every body without a boolean
`success`. -/
theorem http_complete_invalid_body_cex :
    handleApiRequest { store := (PendingStore.createConnectRequest PendingStore.empty
        "ab" 0 none).2, testResults := [] } "/api/complete/ab".toList "POST"
        .jnull "x" 0 = .error () := by
  rfl

/-- Claim C4 (amended): for a pending id and any POST body other than JSON
`null` whose `success` field is not a boolean (missing, null, or of another
type), the response is 400 `{"error":"Invalid request body"}` and the
server state — registry included — is returned unchanged, so the entry and
its unresolved promise are untouched. -/
theorem http_complete_invalid_body_400 (st : ServerState) (tok : List Char)
    (body : Json) (freshId : String) (now : Int)
    (hne : tok ≠ []) (hchars : tok.all isUuidChar)
    (hhas : st.store.hasId (String.mk tok) = true)
    (hnn : body ≠ .jnull)
    (hbad : ∀ b : Bool, body.field "success" ≠ some (.jbool b)) :
    handleApiRequest st (apiCompleteHead ++ tok) "POST" body freshId now
      = .ok (jsonResp 400 (errJson "Invalid request body"), st) := by
  rw [dispatch_complete st tok body freshId now hne hchars]
  unfold completeRoute
  rw [if_neg (by simp [hhas])]
  rw [fieldOrThrow_ok_of_ne_null hnn]
  simp only [Except.bind]

theorem http_complete_invalid_body_400_witness :
    handleApiRequest { store := (PendingStore.createConnectRequest PendingStore.empty
        "ab" 0 none).2, testResults := [] } (apiCompleteHead ++ ['a', 'b']) "POST"
        (.jobj [("result", .jstr "x")]) "y" 0
      = .ok (jsonResp 400 (errJson "Invalid request body"),
          { store := (PendingStore.createConnectRequest PendingStore.empty
              "ab" 0 none).2, testResults := [] }) := by
  exact http_complete_invalid_body_400
    { store := (PendingStore.createConnectRequest PendingStore.empty "ab" 0 none).2,
      testResults := [] } ['a', 'b'] (.jobj [("result", .jstr "x")]) "y" 0
    (by decide) (by decide) (by rfl) (by intro hx; exact Json.noConfusion hx)
    (by
      intro b hx
      rw [show (Json.jobj [("result", Json.jstr "x")]).field "success" = none from rfl] at hx
      exact Option.noConfusion hx)

/-- Claim C10: on a pending id whose promise is still unsettled, a
completion body with `success: true` and a missing, null, or empty-string
`result` resolves the future with `Success{result: ""}`; `success: false`
with a missing, null, or empty-string `error` resolves it with
`Failure{error: "Unknown error"}` — the JavaScript `||` defaults applied
before the registry is reached. -/
theorem http_complete_normalizes_defaults (st : ServerState) (tok : List Char)
    (body : Json) (freshId : String) (now : Int)
    (hne : tok ≠ []) (hchars : tok.all isUuidChar)
    (hhas : st.store.hasId (String.mk tok) = true)
    (hunset : aget (String.mk tok) st.store.promises = some .unsettled) :
    (body.field "success" = some (.jbool true) →
      (body.field "result" = none ∨ body.field "result" = some .jnull
        ∨ body.field "result" = some (.jstr "")) →
      handleApiRequest st (apiCompleteHead ++ tok) "POST" body freshId now
        = .ok (jsonResp 200 (.jobj [("ok", .jbool true)]),
            { st with store := (st.store.complete (String.mk tok)
                (.success (.jstr ""))).2 })
      ∧ aget (String.mk tok) (st.store.complete (String.mk tok)
          (.success (.jstr ""))).2.promises
          = some (.resolved (.success (.jstr ""))))
    ∧ (body.field "success" = some (.jbool false) →
      (body.field "error" = none ∨ body.field "error" = some .jnull
        ∨ body.field "error" = some (.jstr "")) →
      handleApiRequest st (apiCompleteHead ++ tok) "POST" body freshId now
        = .ok (jsonResp 200 (.jobj [("ok", .jbool true)]),
            { st with store := (st.store.complete (String.mk tok)
                (.failure (.jstr "Unknown error"))).2 })
      ∧ aget (String.mk tok) (st.store.complete (String.mk tok)
          (.failure (.jstr "Unknown error"))).2.promises
          = some (.resolved (.failure (.jstr "Unknown error")))) := by
  obtain ⟨entry, hentry⟩ := Option.isSome_iff_exists.mp hhas
  constructor
  · intro hsucc hres
    have hdef : jsOr (body.field "result") (.jstr "") = .jstr "" := by
      rcases hres with h | h | h <;> rw [h] <;> rfl
    have heq := handleComplete_eq st tok body freshId now hne hchars hhas true hsucc
    rw [hdef] at heq
    refine ⟨heq, ?_⟩
    rw [complete_present hentry]
    exact resolvePromise_self (by rw [clearStoredTimeout_promises]; exact hunset) _
  · intro hsucc hres
    have hdef : jsOr (body.field "error") (.jstr "Unknown error")
        = .jstr "Unknown error" := by
      rcases hres with h | h | h <;> rw [h] <;> rfl
    have heq := handleComplete_eq st tok body freshId now hne hchars hhas false hsucc
    rw [hdef] at heq
    refine ⟨heq, ?_⟩
    rw [complete_present hentry]
    exact resolvePromise_self (by rw [clearStoredTimeout_promises]; exact hunset) _

theorem http_complete_normalizes_defaults_witness :
    aget "ab" (((PendingStore.createConnectRequest PendingStore.empty "ab" 0 none).2.complete
        "ab" (.success (.jstr ""))).2.promises)
      = some (.resolved (.success (.jstr ""))) := by
  exact ((http_complete_normalizes_defaults
    { store := (PendingStore.createConnectRequest PendingStore.empty "ab" 0 none).2,
      testResults := [] } ['a', 'b'] (.jobj [("success", .jbool true)]) "y" 0
    (by decide) (by decide) (by rfl) (by rfl)).1 (by rfl) (Or.inl (by rfl))).2
